import Mathlib

/-!
# Verification of the agentic code-debugger pipeline

Shallow embedding of `src/code.py`: a six-step LangGraph pipeline
(`code_parser`, `bug_detector`, `bug_explainer`, `socratic_guide`,
`refiner`, `planner`) over a mutable `AgentState`, driven for at most
`max_iterations` cycles, plus the Streamlit submit handler and the
session-history bookkeeping of `main`.

The external Gemini backend is modelled as a function from a prompt
string to `Except String String`: `.ok text` is a successful
`generate_content` call, `.error e` is a raised exception whose
`str(e)` is `e`.  LangGraph state merging is modelled by
`applyUpdate`: the `messages` channel uses the declared reducer
`lambda a, b: a + b` (append) and every other key is overwritten when
present in a node's returned dict.
-/

namespace RagPdf

/-- A chat message, as in `langchain_core.messages`: the pipeline only
ever constructs `AIMessage` and `HumanMessage`. -/
inductive Message where
  | ai (content : String)
  | human (content : String)
deriving DecidableEq, Repr

/-- `message.content`. -/
def Message.content : Message → String
  | .ai c => c
  | .human c => c

/-- `class AgentState(TypedDict)` (code.py lines 20-24). -/
structure AgentState where
  code : String
  messages : List Message
  iteration : Nat
  max_iterations : Nat
deriving DecidableEq, Repr

/-- The external text-generation service: a prompt either yields
generated text (`.ok`) or raises an exception (`.error`). -/
def Backend : Type := String → Except String String

/-- `call_gemini` (code.py lines 27-34): performs the backend call and
converts any raised exception into the string
`"Error calling Gemini API: " + str(e)`.  It is total: it always
returns a string. -/
def call_gemini (backend : Backend) (prompt : String) : String :=
  match backend prompt with
  | .ok text => text
  | .error e => "Error calling Gemini API: " ++ e

/-- The partial state dict a node returns: every agent returns a
`messages` list (merged by appending) and only the planner also
returns an `iteration` value (which overwrites). -/
structure StateUpdate where
  messages : List Message
  iteration : Option Nat
deriving DecidableEq, Repr

/-- LangGraph channel merge for this state schema: `messages` is
`Annotated[..., lambda a, b: a + b]` so updates append; `iteration`
overwrites when present; `code` and `max_iterations` never appear in
a node's returned dict, hence stay as they are. -/
def applyUpdate (s : AgentState) (u : StateUpdate) : AgentState :=
  { s with
    messages := s.messages ++ u.messages
    iteration := u.iteration.getD s.iteration }

/-- The prompt built by `code_parser_agent` (code.py lines 37-46). -/
def code_parser_prompt (code : String) : String :=
  "You are a senior Python code parser. Analyze the structure of this code:\n\n"
    ++ code ++
  "\n\nProvide a concise analysis of the code structure, including:\n- Functions defined\n- Classes defined\n- Loops and conditionals\n- Import statements\n- Overall code organization"

/-- The prompt built by `bug_detection_agent` (code.py lines 52-65). -/
def bug_detection_prompt (code last_message : String) : String :=
  "You are an expert bug hunter. Find potential errors in this code:\n\n"
    ++ code ++
  "\n\nPrevious analysis:\n"
    ++ last_message ++
  "\n\nIdentify potential bugs including:\n- Syntax errors\n- Runtime errors\n- Logical errors\n- Potential exceptions\n- Type mismatches\n- Variable scope issues"

/-- The prompt built by `bug_explainer_agent` (code.py lines 71-79). -/
def bug_explainer_prompt (last_message : String) : String :=
  "Explain the bug in simple terms for a junior developer:\n\n"
    ++ last_message ++
  "\n\nProvide:\n- Simple explanation of the error\n- Why it occurs\n- When it might occur\n- Real-world analogy to help understanding"

/-- The prompt built by `socratic_guide_agent` (code.py lines 85-93). -/
def socratic_guide_prompt (last_message : String) : String :=
  "Ask a Socratic question to help the user understand the root cause:\n\n"
    ++ last_message ++
  "\n\nFormulate a question that:\n- Encourages critical thinking\n- Helps user discover the solution themselves\n- Relates to programming concepts\n- Is open-ended and thought-provoking"

/-- The prompt built by `refiner_agent` (code.py lines 99-108). -/
def refiner_prompt (last_message : String) : String :=
  "Provide a specific hint to fix the bug without giving the full solution:\n\n"
    ++ last_message ++
  "\n\nOffer:\n- A clear but partial hint\n- Direction to resources\n- Similar examples\n- Pseudo-code suggestion\n- But NOT the complete solution"

/-- `code_parser_agent` (code.py lines 36-48): builds its prompt from
`state["code"]` only and returns one appended `AIMessage`. -/
def code_parser_agent (backend : Backend) (s : AgentState) : StateUpdate :=
  { messages := [Message.ai (call_gemini backend (code_parser_prompt s.code))]
    iteration := none }

/-- `bug_detection_agent` (code.py lines 50-67): reads
`state["messages"][-1].content`; on an empty log that subscript raises
`IndexError`, modelled as `none`. -/
def bug_detection_agent (backend : Backend) (s : AgentState) : Option StateUpdate :=
  match s.messages.getLast? with
  | none => none
  | some m =>
      some { messages := [Message.ai (call_gemini backend (bug_detection_prompt s.code m.content))]
             iteration := none }

/-- `bug_explainer_agent` (code.py lines 69-81). -/
def bug_explainer_agent (backend : Backend) (s : AgentState) : Option StateUpdate :=
  match s.messages.getLast? with
  | none => none
  | some m =>
      some { messages := [Message.ai (call_gemini backend (bug_explainer_prompt m.content))]
             iteration := none }

/-- `socratic_guide_agent` (code.py lines 83-95). -/
def socratic_guide_agent (backend : Backend) (s : AgentState) : Option StateUpdate :=
  match s.messages.getLast? with
  | none => none
  | some m =>
      some { messages := [Message.ai (call_gemini backend (socratic_guide_prompt m.content))]
             iteration := none }

/-- `refiner_agent` (code.py lines 97-110). -/
def refiner_agent (backend : Backend) (s : AgentState) : Option StateUpdate :=
  match s.messages.getLast? with
  | none => none
  | some m =>
      some { messages := [Message.ai (call_gemini backend (refiner_prompt m.content))]
             iteration := none }

/-- Planner output when the incremented count has reached the maximum. -/
def maxCyclesText : String := "🔁 Maximum debugging cycles reached. Analysis complete."

/-- Planner output when more cycles remain. -/
def nextCycleText : String := "🔄 Planning next debugging cycle..."

/-- `planner_agent` (code.py lines 112-118): increments the iteration
counter and appends a status `HumanMessage`. -/
def planner_agent (s : AgentState) : StateUpdate :=
  let new_iteration := s.iteration + 1
  let content := if s.max_iterations ≤ new_iteration then maxCyclesText else nextCycleText
  { messages := [Message.human content], iteration := some new_iteration }

/-- The six graph nodes added in `create_workflow` (code.py lines 125-130). -/
inductive Node where
  | codeParser
  | bug_detector
  | bug_explainer
  | socratic_guide
  | refiner
  | planner
deriving DecidableEq, Repr

/-- The fixed edge order of the graph (entry point `code_parser`,
then the chain of `add_edge` calls, ending at `planner`). -/
def stepOrder : List Node :=
  [Node.codeParser, Node.bug_detector, Node.bug_explainer,
   Node.socratic_guide, Node.refiner, Node.planner]

/-- Dispatch a node name to its agent function.  `code_parser_agent`
and `planner_agent` are total; the four middle agents can raise
`IndexError` on an empty message log. -/
def stepAgent (backend : Backend) : Node → AgentState → Option StateUpdate
  | .codeParser, s => some (code_parser_agent backend s)
  | .bug_detector, s => bug_detection_agent backend s
  | .bug_explainer, s => bug_explainer_agent backend s
  | .socratic_guide, s => socratic_guide_agent backend s
  | .refiner, s => refiner_agent backend s
  | .planner, s => some (planner_agent s)

/-- Run one node: call its agent and merge the returned update into
the state (LangGraph semantics). -/
def applyNode (backend : Backend) (n : Node) (s : AgentState) : Option AgentState :=
  (stepAgent backend n s).map (applyUpdate s)

/-- Run a list of nodes in order, stopping with `none` if any raises. -/
def runNodes (backend : Backend) : List Node → AgentState → Option AgentState
  | [], s => some s
  | n :: ns, s =>
      match applyNode backend n s with
      | none => none
      | some s' => runNodes backend ns s'

/-- One full pass through steps 1-6. -/
def runCycle (backend : Backend) (s : AgentState) : Option AgentState :=
  runNodes backend stepOrder s

/-- The two targets of the conditional edge out of `planner`
(code.py lines 148-155): back to `code_parser`, or `END`. -/
inductive Route where
  | toCodeParser
  | toEnd
deriving DecidableEq, Repr

/-- `should_continue` (code.py lines 143-146): reads the state after
the planner's update has been merged. -/
def should_continue (s : AgentState) : Route :=
  if s.max_iterations ≤ s.iteration then Route.toEnd else Route.toCodeParser

/-- The compiled workflow's loop, with explicit fuel bounding the
number of cycles (the loop itself terminates because `planner`
strictly increments `iteration`). -/
def runLoop (backend : Backend) : Nat → AgentState → Option AgentState
  | 0, _ => none
  | fuel + 1, s =>
      match runCycle backend s with
      | none => none
      | some s' =>
          match should_continue s' with
          | Route.toEnd => some s'
          | Route.toCodeParser => runLoop backend fuel s'

/-- `create_workflow().stream(initial_state)` run to completion:
entry point `code_parser`, loop until `should_continue` routes to
`END`.  `max_iterations + 1` cycles of fuel always suffice. -/
def runWorkflow (backend : Backend) (s : AgentState) : Option AgentState :=
  runLoop backend (s.max_iterations + 1) s

/-- The trace of (node, state-the-node-is-invoked-on) pairs of one
pass over a node list; it stops where execution stops. -/
def nodeTrace (backend : Backend) : List Node → AgentState → List (Node × AgentState)
  | [], _ => []
  | n :: ns, s =>
      (n, s) ::
        match applyNode backend n s with
        | none => []
        | some s' => nodeTrace backend ns s'

/-- The trace of the whole looped run, with fuel as in `runLoop`. -/
def runLoopTrace (backend : Backend) : Nat → AgentState → List (Node × AgentState)
  | 0, _ => []
  | fuel + 1, s =>
      nodeTrace backend stepOrder s ++
        match runCycle backend s with
        | none => []
        | some s' =>
            match should_continue s' with
            | Route.toEnd => []
            | Route.toCodeParser => runLoopTrace backend fuel s'

/-- The trace of the whole run, fueled exactly as `runWorkflow`. -/
def runTrace (backend : Backend) (s : AgentState) : List (Node × AgentState) :=
  runLoopTrace backend (s.max_iterations + 1) s

/-- The initial state built on submission (code.py lines 445-450). -/
def initState (code : String) (max_iterations : Nat) : AgentState :=
  { code := code, messages := [], iteration := 0, max_iterations := max_iterations }

/-! ## Session history and the submit handler of `main` -/

/-- A session record held in `st.session_state.session_history`
(code.py lines 287-294): the submitted code text and the message log. -/
structure Session where
  code : String
  messages : List Message
deriving DecidableEq, Repr

/-- code.py lines 441-442: before the run, the current session is
appended to the history unless an identical record is already present. -/
def saveToHistory (history : List Session) (current : Session) : List Session :=
  if current ∈ history then history else history ++ [current]

/-- The history bookkeeping around one completed run (code.py lines
441-442, 489-492 and 513-517): save the pre-run session if absent,
overwrite the current session's messages with
`initial_state["messages"]` (passed here as `initialStateMessages`),
drop every history record whose code equals the current code, append
the updated session, and then — in the final-status block — append a
second record with the same code and messages. -/
def updateHistory (history : List Session) (current : Session)
    (initialStateMessages : List Message) : List Session :=
  let history1 := saveToHistory history current
  let current1 : Session := { current with messages := initialStateMessages }
  let history2 := (history1.filter fun s => s.code != current1.code) ++ [current1]
  history2 ++ [{ code := current1.code, messages := current1.messages }]

/-- The observable outcome of one form submission.  The constructor
`emptyInputFailure` is the outcome the specification expects for blank
input; the code has no path producing it — a blank submission simply
skips the whole handler body (code.py line 435). -/
inductive SubmitOutcome where
  | ignored
  | emptyInputFailure
  | apiKeyError
  | ran (result : Option AgentState)
deriving DecidableEq, Repr

/-- Python `str.strip()`: the string with leading and trailing
whitespace removed. -/
def strip (s : String) : String :=
  String.mk (((s.data.dropWhile Char.isWhitespace).reverse.dropWhile
    Char.isWhitespace).reverse)

/-- The submission handler (code.py lines 435-467): the body runs only
when the form was submitted and the stripped code text is non-empty
(Python truthiness of `code.strip()`); with no API key it stops with
an API-key error; otherwise it streams the compiled workflow from
`initState`. -/
def handleSubmit (backend : Backend) (hasApiKey submitted : Bool) (code : String)
    (max_iterations : Nat) : SubmitOutcome :=
  if submitted && strip code != "" then
    if !hasApiKey then SubmitOutcome.apiKeyError
    else SubmitOutcome.ran (runWorkflow backend (initState code max_iterations))
  else SubmitOutcome.ignored

/-! ## Concrete backends and states for witnesses -/

/-- A backend whose every call succeeds with the text `"ok"`. -/
def okBackend : Backend := fun _ => Except.ok "ok"

/-- A second, pointwise-identical copy of `okBackend`. -/
def okBackend2 : Backend := fun _ => Except.ok "ok"

/-- A backend whose every call raises, with `str(e) = "boom"`. -/
def failBackend : Backend := fun _ => Except.error "boom"

/-- A backend that raises exactly on the bug-explainer prompt built
from the detector output `"analysis"` (so, on step 3 of each cycle in
a run where every other call answers `"analysis"`). -/
def failOnExplainerBackend : Backend := fun prompt =>
  if prompt = bug_explainer_prompt "analysis" then Except.error "quota exceeded"
  else Except.ok "analysis"

/-- The state after the first `code_parser` step of a run of
`okBackend` on code `"c"`. -/
def stateAfterParser : AgentState :=
  { code := "c", messages := [Message.ai "ok"], iteration := 0, max_iterations := 1 }

/-- The final state of a run of `okBackend` on code `"c"` with one cycle. -/
def finalState1 : AgentState :=
  { code := "c"
    messages := [Message.ai "ok", Message.ai "ok", Message.ai "ok", Message.ai "ok",
      Message.ai "ok", Message.human maxCyclesText]
    iteration := 1
    max_iterations := 1 }

/-! ## Derived description of one cycle -/

/-- The state produced by one full pass of the six steps, written out
explicitly (derived from the agent definitions, proved equal to
`runCycle` below). -/
def cycleResult (backend : Backend) (s : AgentState) : AgentState :=
  let m1 := call_gemini backend (code_parser_prompt s.code)
  let m2 := call_gemini backend (bug_detection_prompt s.code m1)
  let m3 := call_gemini backend (bug_explainer_prompt m2)
  let m4 := call_gemini backend (socratic_guide_prompt m3)
  let m5 := call_gemini backend (refiner_prompt m4)
  let m6 := if s.max_iterations ≤ s.iteration + 1 then maxCyclesText else nextCycleText
  { code := s.code
    messages := s.messages ++
      [Message.ai m1, Message.ai m2, Message.ai m3, Message.ai m4, Message.ai m5,
       Message.human m6]
    iteration := s.iteration + 1
    max_iterations := s.max_iterations }

/-- First backend response of a cycle starting at `s`. -/
def cm1 (backend : Backend) (s : AgentState) : String :=
  call_gemini backend (code_parser_prompt s.code)

/-- Second backend response of a cycle starting at `s`. -/
def cm2 (backend : Backend) (s : AgentState) : String :=
  call_gemini backend (bug_detection_prompt s.code (cm1 backend s))

/-- Third backend response of a cycle starting at `s`. -/
def cm3 (backend : Backend) (s : AgentState) : String :=
  call_gemini backend (bug_explainer_prompt (cm2 backend s))

/-- Fourth backend response of a cycle starting at `s`. -/
def cm4 (backend : Backend) (s : AgentState) : String :=
  call_gemini backend (socratic_guide_prompt (cm3 backend s))

/-- Fifth backend response of a cycle starting at `s`. -/
def cm5 (backend : Backend) (s : AgentState) : String :=
  call_gemini backend (refiner_prompt (cm4 backend s))

/-- State on which step `k+1` of a cycle starting at `s` is invoked. -/
def traceS (backend : Backend) (s : AgentState) (k : Nat) : AgentState :=
  { s with messages := s.messages ++
      ([Message.ai (cm1 backend s), Message.ai (cm2 backend s), Message.ai (cm3 backend s),
        Message.ai (cm4 backend s), Message.ai (cm5 backend s)].take k) }

lemma runCycle_eq (backend : Backend) (s : AgentState) :
    runCycle backend s = some (cycleResult backend s) := by
  simp [runCycle, runNodes, stepOrder, applyNode, stepAgent, code_parser_agent,
    bug_detection_agent, bug_explainer_agent, socratic_guide_agent, refiner_agent,
    planner_agent, applyUpdate, Message.content, cycleResult, List.getLast?_concat]

lemma cycleResult_code (backend : Backend) (s : AgentState) :
    (cycleResult backend s).code = s.code := rfl

lemma cycleResult_max (backend : Backend) (s : AgentState) :
    (cycleResult backend s).max_iterations = s.max_iterations := rfl

lemma cycleResult_iteration (backend : Backend) (s : AgentState) :
    (cycleResult backend s).iteration = s.iteration + 1 := rfl

lemma cycleResult_messages_length (backend : Backend) (s : AgentState) :
    (cycleResult backend s).messages.length = s.messages.length + 6 := by
  simp [cycleResult]

lemma cycleResult_logPrefix (backend : Backend) (s : AgentState) :
    s.messages <+: (cycleResult backend s).messages :=
  ⟨_, rfl⟩

/-! ## The loop -/

lemma runLoop_spec (backend : Backend) :
    ∀ fuel s, s.iteration < s.max_iterations → s.max_iterations - s.iteration ≤ fuel →
      ∃ final, runLoop backend fuel s = some final ∧
        final.code = s.code ∧
        final.max_iterations = s.max_iterations ∧
        final.iteration = s.max_iterations ∧
        final.messages.length = s.messages.length + 6 * (s.max_iterations - s.iteration) ∧
        s.messages <+: final.messages := by
  intro fuel
  induction fuel with
  | zero => intro s hlt hfuel; omega
  | succ fuel ih =>
      intro s hlt hfuel
      rcases Nat.lt_or_ge (s.iteration + 1) s.max_iterations with hmore | hdone
      · have hroute : should_continue (cycleResult backend s) = Route.toCodeParser := by
          simp only [should_continue, cycleResult_iteration, cycleResult_max]
          rw [if_neg (by omega)]
        simp only [runLoop, runCycle_eq, hroute]
        obtain ⟨final, hrun, hcode, hmax, hiter, hlen, hpre⟩ :=
          ih (cycleResult backend s)
            (by rw [cycleResult_iteration, cycleResult_max]; exact hmore)
            (by rw [cycleResult_iteration, cycleResult_max]; omega)
        refine ⟨final, hrun, ?_, ?_, ?_, ?_, ?_⟩
        · rw [hcode, cycleResult_code]
        · rw [hmax, cycleResult_max]
        · rw [hiter, cycleResult_max]
        · rw [hlen, cycleResult_messages_length, cycleResult_iteration, cycleResult_max]
          omega
        · exact (cycleResult_logPrefix backend s).trans hpre
      · have hroute : should_continue (cycleResult backend s) = Route.toEnd := by
          simp only [should_continue, cycleResult_iteration, cycleResult_max]
          rw [if_pos (by omega)]
        simp only [runLoop, runCycle_eq, hroute]
        refine ⟨cycleResult backend s, rfl, cycleResult_code backend s,
          cycleResult_max backend s, ?_, ?_, cycleResult_logPrefix backend s⟩
        · rw [cycleResult_iteration]; omega
        · rw [cycleResult_messages_length]; omega

lemma runWorkflow_initState (backend : Backend) (code : String) (N : Nat) (hN : 0 < N) :
    ∃ final, runWorkflow backend (initState code N) = some final ∧
      final.code = code ∧
      final.max_iterations = N ∧
      final.iteration = N ∧
      final.messages.length = 6 * N := by
  obtain ⟨final, hrun, hcode, hmax, hiter, hlen, -⟩ :=
    runLoop_spec backend (N + 1) (initState code N) (by simpa [initState] using hN)
      (by simp [initState])
  exact ⟨final, hrun, hcode, hmax, hiter, by simpa [initState] using hlen⟩

/-! ## Per-node frame facts -/

lemma applyNode_frame (backend : Backend) (n : Node) (s s' : AgentState)
    (h : applyNode backend n s = some s') :
    s'.code = s.code ∧ s'.max_iterations = s.max_iterations ∧
      (∃ m, s'.messages = s.messages ++ [m]) ∧
      s'.iteration = (if n = Node.planner then s.iteration + 1 else s.iteration) := by
  cases n with
  | codeParser =>
      simp only [applyNode, stepAgent, Option.map_some', Option.some.injEq] at h
      subst h
      exact ⟨rfl, rfl, ⟨_, rfl⟩, by simp [applyUpdate, code_parser_agent]⟩
  | bug_detector =>
      cases hl : s.messages.getLast? with
      | none => simp [applyNode, stepAgent, bug_detection_agent, hl] at h
      | some m =>
          simp only [applyNode, stepAgent, bug_detection_agent, hl, Option.map_some',
            Option.some.injEq] at h
          subst h
          exact ⟨rfl, rfl, ⟨_, rfl⟩, by simp [applyUpdate]⟩
  | bug_explainer =>
      cases hl : s.messages.getLast? with
      | none => simp [applyNode, stepAgent, bug_explainer_agent, hl] at h
      | some m =>
          simp only [applyNode, stepAgent, bug_explainer_agent, hl, Option.map_some',
            Option.some.injEq] at h
          subst h
          exact ⟨rfl, rfl, ⟨_, rfl⟩, by simp [applyUpdate]⟩
  | socratic_guide =>
      cases hl : s.messages.getLast? with
      | none => simp [applyNode, stepAgent, socratic_guide_agent, hl] at h
      | some m =>
          simp only [applyNode, stepAgent, socratic_guide_agent, hl, Option.map_some',
            Option.some.injEq] at h
          subst h
          exact ⟨rfl, rfl, ⟨_, rfl⟩, by simp [applyUpdate]⟩
  | refiner =>
      cases hl : s.messages.getLast? with
      | none => simp [applyNode, stepAgent, refiner_agent, hl] at h
      | some m =>
          simp only [applyNode, stepAgent, refiner_agent, hl, Option.map_some',
            Option.some.injEq] at h
          subst h
          exact ⟨rfl, rfl, ⟨_, rfl⟩, by simp [applyUpdate]⟩
  | planner =>
      simp only [applyNode, stepAgent, Option.map_some', Option.some.injEq] at h
      subst h
      exact ⟨rfl, rfl, ⟨_, rfl⟩, by simp [applyUpdate, planner_agent]⟩

/-! ## Trace facts -/

lemma nodeTrace_eq (backend : Backend) (s : AgentState) :
    nodeTrace backend stepOrder s =
      [(Node.codeParser, traceS backend s 0), (Node.bug_detector, traceS backend s 1),
       (Node.bug_explainer, traceS backend s 2), (Node.socratic_guide, traceS backend s 3),
       (Node.refiner, traceS backend s 4), (Node.planner, traceS backend s 5)] := by
  simp [nodeTrace, stepOrder, applyNode, stepAgent, code_parser_agent,
    bug_detection_agent, bug_explainer_agent, socratic_guide_agent, refiner_agent,
    planner_agent, applyUpdate, Message.content, List.getLast?_concat,
    traceS, cm1, cm2, cm3, cm4, cm5]

lemma nodeTrace_spec (backend : Backend) (s : AgentState) :
    (nodeTrace backend stepOrder s).map Prod.fst = stepOrder ∧
    ∀ p ∈ nodeTrace backend stepOrder s,
      p.2.code = s.code ∧ p.2.max_iterations = s.max_iterations ∧
      p.2.iteration = s.iteration ∧
      (p.1 ≠ Node.codeParser → p.2.messages ≠ []) ∧
      stepAgent backend p.1 p.2 ≠ none := by
  rw [nodeTrace_eq]
  constructor
  · simp [stepOrder]
  · intro p hp
    simp only [List.mem_cons, List.not_mem_nil, or_false] at hp
    rcases hp with rfl | rfl | rfl | rfl | rfl | rfl <;>
      refine ⟨rfl, rfl, rfl, ?_, ?_⟩ <;>
      simp [traceS, stepAgent, code_parser_agent, bug_detection_agent, bug_explainer_agent,
        socratic_guide_agent, refiner_agent, planner_agent, List.getLast?_concat]

lemma runLoopTrace_spec (backend : Backend) :
    ∀ fuel s, s.iteration < s.max_iterations → s.max_iterations - s.iteration ≤ fuel →
      (runLoopTrace backend fuel s).map Prod.fst =
          (List.replicate (s.max_iterations - s.iteration) stepOrder).flatten ∧
      ∀ p ∈ runLoopTrace backend fuel s,
        p.2.code = s.code ∧ p.2.max_iterations = s.max_iterations ∧
        p.2.iteration < s.max_iterations ∧
        (p.1 ≠ Node.codeParser → p.2.messages ≠ []) ∧
        stepAgent backend p.1 p.2 ≠ none := by
  intro fuel
  induction fuel with
  | zero => intro s hlt hfuel; omega
  | succ fuel ih =>
      intro s hlt hfuel
      rcases Nat.lt_or_ge (s.iteration + 1) s.max_iterations with hmore | hdone
      · have hroute : should_continue (cycleResult backend s) = Route.toCodeParser := by
          simp only [should_continue, cycleResult_iteration, cycleResult_max]
          rw [if_neg (by omega)]
        have hrec := ih (cycleResult backend s)
          (by rw [cycleResult_iteration, cycleResult_max]; exact hmore)
          (by rw [cycleResult_iteration, cycleResult_max]; omega)
        simp only [cycleResult_iteration, cycleResult_max, cycleResult_code] at hrec
        have hk : s.max_iterations - s.iteration =
            (s.max_iterations - (s.iteration + 1)) + 1 := by omega
        simp only [runLoopTrace, runCycle_eq, hroute]
        constructor
        · rw [List.map_append, (nodeTrace_spec backend s).1, hrec.1, hk]
          simp [List.replicate_succ]
        · intro p hp
          rcases List.mem_append.mp hp with hp | hp
          · obtain ⟨h1, h2, h3, h4, h5⟩ := (nodeTrace_spec backend s).2 p hp
            exact ⟨h1, h2, by omega, h4, h5⟩
          · exact hrec.2 p hp
      · have hroute : should_continue (cycleResult backend s) = Route.toEnd := by
          simp only [should_continue, cycleResult_iteration, cycleResult_max]
          rw [if_pos (by omega)]
        have hk : s.max_iterations - s.iteration = 1 := by omega
        simp only [runLoopTrace, runCycle_eq, hroute]
        constructor
        · rw [List.append_nil, (nodeTrace_spec backend s).1, hk]
          simp
        · intro p hp
          rw [List.append_nil] at hp
          obtain ⟨h1, h2, h3, h4, h5⟩ := (nodeTrace_spec backend s).2 p hp
          exact ⟨h1, h2, by omega, h4, h5⟩

lemma runTrace_initState (backend : Backend) (code : String) (N : Nat) (hN : 0 < N) :
    (runTrace backend (initState code N)).map Prod.fst = (List.replicate N stepOrder).flatten ∧
    ∀ p ∈ runTrace backend (initState code N),
      p.2.code = code ∧ p.2.max_iterations = N ∧ p.2.iteration < N ∧
      (p.1 ≠ Node.codeParser → p.2.messages ≠ []) ∧
      stepAgent backend p.1 p.2 ≠ none := by
  have h := runLoopTrace_spec backend (N + 1) (initState code N)
    (by simpa [initState] using hN) (by simp [initState])
  simpa [runTrace, initState] using h

lemma runLoop_logPrefix (backend : Backend) :
    ∀ fuel s final, runLoop backend fuel s = some final → s.messages <+: final.messages := by
  intro fuel
  induction fuel with
  | zero => intro s final h; simp [runLoop] at h
  | succ fuel ih =>
      intro s final h
      rcases hr : should_continue (cycleResult backend s) with _ | _ <;>
        simp only [runLoop, runCycle_eq, hr] at h
      · exact (cycleResult_logPrefix backend s).trans (ih _ _ h)
      · obtain rfl : cycleResult backend s = final := by simpa using h
        exact cycleResult_logPrefix backend s

/-! ## Claims -/

/-- C1: for every `max_iterations = N > 0`, a run in which no backend
call fails executes the six steps in the fixed order `code_parser`,
`bug_detector`, `bug_explainer`, `socratic_guide`, `refiner`,
`planner` for exactly `N` full passes and appends exactly `6 * N` step
outputs to the message log; in particular for `N = 1` the trace is the
single pass `stepOrder` and control never loops back to step 1. -/
theorem C1_fixed_order_N_passes (backend : Backend) (code : String) (N : Nat)
    (_hok : ∀ p, ∃ t, backend p = Except.ok t) (hN : 0 < N) :
    (∃ final, runWorkflow backend (initState code N) = some final ∧
        final.iteration = N ∧ final.messages.length = 6 * N) ∧
    (runTrace backend (initState code N)).map Prod.fst =
        (List.replicate N stepOrder).flatten ∧
    (N = 1 → (runTrace backend (initState code N)).map Prod.fst = stepOrder) := by
  refine ⟨?_, (runTrace_initState backend code N hN).1, ?_⟩
  · obtain ⟨final, h1, h2, h3, h4, h5⟩ := runWorkflow_initState backend code N hN
    exact ⟨final, h1, h4, h5⟩
  · rintro rfl
    rw [(runTrace_initState backend code 1 hN).1]
    simp

theorem C1_fixed_order_N_passes_witness :
    (∀ p, ∃ t, okBackend p = Except.ok t) ∧ 0 < 1 ∧
    ((∃ final, runWorkflow okBackend (initState "c" 1) = some final ∧
        final.iteration = 1 ∧ final.messages.length = 6 * 1) ∧
      (runTrace okBackend (initState "c" 1)).map Prod.fst =
          (List.replicate 1 stepOrder).flatten ∧
      (1 = 1 → (runTrace okBackend (initState "c" 1)).map Prod.fst = stepOrder)) :=
  ⟨fun _ => ⟨"ok", rfl⟩, Nat.one_pos,
    C1_fixed_order_N_passes okBackend "c" 1 (fun _ => ⟨"ok", rfl⟩) Nat.one_pos⟩

set_option maxRecDepth 8192 in
/-- C2 counterexample: with a backend that raises exactly on the
bug-explainer prompt (step 3; every other call answers `"analysis"`)
and `max_iterations = 2`, the first failing call is step 3 of cycle 1,
after two outputs.  The claim's immediate termination would preserve
exactly those 2 outputs and skip the rest; the run instead completes
all 12 steps, with the error text embedded as output 3. -/
theorem C2_counterexample :
    (runWorkflow failOnExplainerBackend (initState "x = 1" 2)).map
        (fun s => s.messages.length) = some 12 ∧
    (runWorkflow failOnExplainerBackend (initState "x = 1" 2)).map
        (fun s => s.messages.get? 2) =
      some (some (Message.ai "Error calling Gemini API: quota exceeded")) ∧
    (12 : Nat) ≠ 2 :=
  ⟨rfl, rfl, by omega⟩

/-- C2 amended: a failing backend call does not terminate the run.
`call_gemini` swallows the exception and returns the error text as that
step's output, so for every backend — even one whose calls all raise —
and every `N > 0` the run still completes all `N` cycles with `6 * N`
outputs; no `BackendCallFailure` outcome exists for backend errors, and
the outputs produced before a failing step are preserved unchanged in
the log (the log is append-only). -/
theorem C2_no_abort_on_backend_failure (backend : Backend) (code : String) (N : Nat)
    (hN : 0 < N) :
    ∃ final, runWorkflow backend (initState code N) = some final ∧
      final.iteration = N ∧ final.messages.length = 6 * N := by
  obtain ⟨final, h1, h2, h3, h4, h5⟩ := runWorkflow_initState backend code N hN
  exact ⟨final, h1, h4, h5⟩

theorem C2_no_abort_on_backend_failure_witness :
    0 < 2 ∧ ∃ final, runWorkflow failBackend (initState "y" 2) = some final ∧
      final.iteration = 2 ∧ final.messages.length = 6 * 2 :=
  ⟨by omega, C2_no_abort_on_backend_failure failBackend "y" 2 (by omega)⟩

/-- C3 counterexample: submitting whitespace-only code executes no
pipeline step, but no `EmptyInputFailure` is reported either: the
handler body is silently skipped. -/
theorem C3_counterexample :
    handleSubmit okBackend true true "   " 3 = SubmitOutcome.ignored ∧
    handleSubmit okBackend true true "   " 3 ≠ SubmitOutcome.emptyInputFailure := by
  constructor
  · rfl
  · intro h
    rw [show handleSubmit okBackend true true "   " 3 = SubmitOutcome.ignored from rfl] at h
    cases h

/-- C3 amended: if the submitted code text is empty or whitespace-only,
no pipeline step executes — the submission is silently ignored — but no
`EmptyInputFailure` (nor any other failure) is reported to the caller:
the code has no such path. -/
theorem C3_blank_input_silently_ignored (backend : Backend) (hasApiKey submitted : Bool)
    (code : String) (N : Nat) (h : strip code = "") :
    handleSubmit backend hasApiKey submitted code N = SubmitOutcome.ignored := by
  simp [handleSubmit, h]

theorem C3_blank_input_silently_ignored_witness :
    (strip "  \n " = "") ∧
    handleSubmit okBackend true true "  \n " 3 = SubmitOutcome.ignored :=
  ⟨rfl, C3_blank_input_silently_ignored okBackend true true "  \n " 3 rfl⟩

/-- C4: starting from `iteration = 0`, the counter is incremented by
exactly 1 per full pass — by the planner step only, every other node
leaves it unchanged — and in every reachable state of a run (each
state a node is invoked on, and the final state) it never exceeds
`max_iterations`. -/
theorem C4_iteration_invariant (backend : Backend) (code : String) (N : Nat)
    (hN : 0 < N) :
    (∀ n s s', applyNode backend n s = some s' →
        s'.iteration = (if n = Node.planner then s.iteration + 1 else s.iteration)) ∧
    (∀ s, (runCycle backend s).map AgentState.iteration = some (s.iteration + 1)) ∧
    (∀ p ∈ runTrace backend (initState code N), p.2.iteration ≤ N) ∧
    (∀ final, runWorkflow backend (initState code N) = some final →
        final.iteration ≤ N) := by
  refine ⟨?_, ?_, ?_, ?_⟩
  · intro n s s' h
    exact (applyNode_frame backend n s s' h).2.2.2
  · intro s
    rw [runCycle_eq]
    simp [cycleResult_iteration]
  · intro p hp
    exact Nat.le_of_lt ((runTrace_initState backend code N hN).2 p hp).2.2.1
  · intro final hfinal
    obtain ⟨f, h1, h2, h3, h4, h5⟩ := runWorkflow_initState backend code N hN
    rw [h1] at hfinal
    obtain rfl := Option.some.inj hfinal
    omega

theorem C4_iteration_invariant_witness :
    0 < 1 ∧
    ((∀ n s s', applyNode okBackend n s = some s' →
        s'.iteration = (if n = Node.planner then s.iteration + 1 else s.iteration)) ∧
      (∀ s, (runCycle okBackend s).map AgentState.iteration = some (s.iteration + 1)) ∧
      (∀ p ∈ runTrace okBackend (initState "c" 1), p.2.iteration ≤ 1) ∧
      (∀ final, runWorkflow okBackend (initState "c" 1) = some final →
          final.iteration ≤ 1)) :=
  ⟨Nat.one_pos, C4_iteration_invariant okBackend "c" 1 Nat.one_pos⟩

/-- C5: the planner emits the cycles-exhausted status text iff the
incremented count has reached the configured maximum (the continue
status text otherwise), always returns the incremented count, and the
conditional edge after the planner's update loops back to step 1
(`code_parser`) iff the incremented count is below the maximum,
routing to the terminal state otherwise. -/
theorem C5_planner_decision (s : AgentState) :
    ((planner_agent s).messages = [Message.human maxCyclesText] ↔
        s.max_iterations ≤ s.iteration + 1) ∧
    ((planner_agent s).messages = [Message.human nextCycleText] ↔
        s.iteration + 1 < s.max_iterations) ∧
    (planner_agent s).iteration = some (s.iteration + 1) ∧
    (should_continue (applyUpdate s (planner_agent s)) = Route.toCodeParser ↔
        s.iteration + 1 < s.max_iterations) ∧
    (should_continue (applyUpdate s (planner_agent s)) = Route.toEnd ↔
        s.max_iterations ≤ s.iteration + 1) := by
  have hne : maxCyclesText ≠ nextCycleText := by decide
  by_cases hc : s.max_iterations ≤ s.iteration + 1
  · simp [planner_agent, should_continue, applyUpdate, hc, hne, Nat.not_lt.mpr hc]
  · simp [planner_agent, should_continue, applyUpdate, hc, Ne.symm hne,
      Nat.lt_of_not_le hc]

/-- C6: every pipeline step leaves `code` and `max_iterations`
unchanged; the only mutations are appending exactly one entry to
`messages` and, in the planner step only, updating `iteration`; hence
`messages` is append-only and its insertion order is preserved across
the whole run (the log at the start of any run is a prefix of the
final log). -/
theorem C6_frame (backend : Backend) :
    (∀ n s s', applyNode backend n s = some s' →
        s'.code = s.code ∧ s'.max_iterations = s.max_iterations ∧
        (∃ m, s'.messages = s.messages ++ [m]) ∧
        (n ≠ Node.planner → s'.iteration = s.iteration)) ∧
    (∀ s final, runWorkflow backend s = some final →
        s.messages <+: final.messages) := by
  constructor
  · intro n s s' h
    obtain ⟨h1, h2, h3, h4⟩ := applyNode_frame backend n s s' h
    refine ⟨h1, h2, h3, fun hn => ?_⟩
    rw [h4, if_neg hn]
  · intro s final h
    exact runLoop_logPrefix backend _ s final h

theorem C6_frame_witness :
    (stateAfterParser.code = (initState "c" 1).code ∧
      stateAfterParser.max_iterations = (initState "c" 1).max_iterations ∧
      (∃ m, stateAfterParser.messages = (initState "c" 1).messages ++ [m]) ∧
      (Node.codeParser ≠ Node.planner →
        stateAfterParser.iteration = (initState "c" 1).iteration)) ∧
    (initState "c" 1).messages <+: finalState1.messages :=
  ⟨(C6_frame okBackend).1 Node.codeParser (initState "c" 1) stateAfterParser rfl,
    (C6_frame okBackend).2 (initState "c" 1) finalState1 rfl⟩

/-- C7 counterexample: already from an empty history, one completed
run leaves two Session Records with the run's code — the session is
appended once after the deduplicating filter and a second time in the
final-status block — so "at most one record per unique code string"
fails. -/
theorem C7_counterexample :
    ((updateHistory [] { code := "x", messages := [] } []).countP
        (fun s => s.code == "x")) = 2 ∧ ¬ (2 : Nat) ≤ 1 :=
  ⟨rfl, by omega⟩

/-- C7 amended: after a completed run the retained history contains
exactly two Session Records for the run's code — every older record
with that code is removed first, so both surviving records are the
most recent run's (last write wins), one added after the
deduplicating filter and a duplicate added by the final-status block —
and the number of records for every other code is unchanged. -/
theorem C7_history_two_records (history : List Session) (current : Session)
    (msgs : List Message) :
    ((updateHistory history current msgs).countP
        (fun s => s.code == current.code)) = 2 ∧
    ∀ c, c ≠ current.code →
      ((updateHistory history current msgs).countP (fun s => s.code == c)) =
        ((saveToHistory history current).countP (fun s => s.code == c)) := by
  constructor
  · rw [updateHistory]
    simp only [List.countP_append, List.countP_cons, List.countP_nil]
    have h0 : ((saveToHistory history current).filter
        (fun s => s.code != current.code)).countP (fun s => s.code == current.code) = 0 := by
      rw [List.countP_eq_zero]
      intro a ha
      have := (List.mem_filter.mp ha).2
      simp only [bne_iff_ne, ne_eq] at this
      simp [this]
    simp [h0]
  · intro c hc
    rw [updateHistory]
    simp only [List.countP_append, List.countP_cons, List.countP_nil]
    have h1 : ((saveToHistory history current).filter
        (fun s => s.code != current.code)).countP (fun s => s.code == c) =
        (saveToHistory history current).countP (fun s => s.code == c) := by
      rw [List.countP_filter]
      apply List.countP_congr
      intro a _
      cases ha : (a.code == c) with
      | false => simp [ha]
      | true =>
          have : a.code = c := by simpa using ha
          simp [ha, this, hc]
    have h2 : (({ code := current.code, messages := msgs } : Session).code == c) = false := by
      simpa using hc.symm
    simp [h1, h2]

theorem C7_history_two_records_witness :
    "z" ≠ "x" ∧
    (((updateHistory [⟨"z", []⟩] { code := "x", messages := [] } []).countP
        (fun s => s.code == "x")) = 2 ∧
      ((updateHistory [⟨"z", []⟩] { code := "x", messages := [] } []).countP
          (fun s => s.code == "z")) =
        ((saveToHistory [⟨"z", []⟩] { code := "x", messages := [] }).countP
          (fun s => s.code == "z"))) := by
  have h := C7_history_two_records [⟨"z", []⟩] { code := "x", messages := [] } []
  exact ⟨by decide, h.1, h.2 "z" (by decide)⟩

/-- C8: two runs with identical input code, identical `max_iterations`
and pointwise-identical deterministic prompt-to-response backends
produce identical results and identical traces (same labels, same
texts, same order). -/
theorem C8_determinism (b1 b2 : Backend) (c1 c2 : String) (n1 n2 : Nat)
    (hb : ∀ p, b1 p = b2 p) (hc : c1 = c2) (hn : n1 = n2) :
    runWorkflow b1 (initState c1 n1) = runWorkflow b2 (initState c2 n2) ∧
    runTrace b1 (initState c1 n1) = runTrace b2 (initState c2 n2) := by
  have hb' : b1 = b2 := funext hb
  subst hb' hc hn
  exact ⟨rfl, rfl⟩

theorem C8_determinism_witness :
    runWorkflow okBackend (initState "c" 1) = runWorkflow okBackend2 (initState "c" 1) ∧
    runTrace okBackend (initState "c" 1) = runTrace okBackend2 (initState "c" 1) :=
  C8_determinism okBackend okBackend2 "c" "c" 1 1 (fun _ => rfl) rfl rfl

/-- C9: every agent that reads `state["messages"][-1]`
(`bug_detector`, `bug_explainer`, `socratic_guide`, `refiner`) is only
ever invoked on a state whose message log is non-empty — `code_parser`
is the entry point of each cycle and every preceding step appends one
message — so the last-element access never fails in any reachable run:
every step's agent call in the trace returns a result. -/
theorem C9_last_message_access_safe (backend : Backend) (code : String) (N : Nat)
    (hN : 0 < N) :
    ∀ p ∈ runTrace backend (initState code N),
      ((p.1 = Node.bug_detector ∨ p.1 = Node.bug_explainer ∨
        p.1 = Node.socratic_guide ∨ p.1 = Node.refiner) → p.2.messages ≠ []) ∧
      stepAgent backend p.1 p.2 ≠ none := by
  intro p hp
  obtain ⟨-, -, -, h4, h5⟩ := (runTrace_initState backend code N hN).2 p hp
  refine ⟨fun hcase => h4 ?_, h5⟩
  rcases hcase with h | h | h | h <;> rw [h] <;> intro hcp <;> cases hcp

theorem C9_last_message_access_safe_witness :
    0 < 1 ∧ (Node.bug_detector, stateAfterParser) ∈ runTrace okBackend (initState "c" 1) ∧
    (((Node.bug_detector, stateAfterParser).1 = Node.bug_detector ∨
        (Node.bug_detector, stateAfterParser).1 = Node.bug_explainer ∨
        (Node.bug_detector, stateAfterParser).1 = Node.socratic_guide ∨
        (Node.bug_detector, stateAfterParser).1 = Node.refiner) →
      (Node.bug_detector, stateAfterParser).2.messages ≠ []) ∧
    stepAgent okBackend (Node.bug_detector, stateAfterParser).1
        (Node.bug_detector, stateAfterParser).2 ≠ none :=
  ⟨Nat.one_pos, by decide,
    C9_last_message_access_safe okBackend "c" 1 Nat.one_pos
      (Node.bug_detector, stateAfterParser) (by decide)⟩

/-- C10: `call_gemini` is total on its error branch: whenever the
backend call raises with message `e`, it returns the string
`"Error calling Gemini API: " ++ e` — which begins with
`"Error calling Gemini API:"` — instead of propagating the exception,
and a backend error inside a step never by itself aborts the pipeline:
the run still completes for any backend and any positive cycle bound. -/
theorem C10_call_gemini_total_on_error (backend : Backend) (prompt e : String)
    (h : backend prompt = Except.error e) (code : String) (N : Nat) :
    call_gemini backend prompt = "Error calling Gemini API: " ++ e ∧
    (∃ r, call_gemini backend prompt = "Error calling Gemini API:" ++ r) ∧
    (∃ final, runWorkflow backend (initState code (N + 1)) = some final) := by
  have heq : call_gemini backend prompt = "Error calling Gemini API: " ++ e := by
    simp [call_gemini, h]
  refine ⟨heq, ⟨" " ++ e, ?_⟩, ?_⟩
  · rw [heq, ← String.append_assoc]
    rfl
  · obtain ⟨final, h1, -⟩ :=
      runWorkflow_initState backend code (N + 1) (Nat.succ_pos N)
    exact ⟨final, h1⟩

theorem C10_call_gemini_total_on_error_witness :
    failBackend "p" = Except.error "boom" ∧
    (call_gemini failBackend "p" = "Error calling Gemini API: " ++ "boom" ∧
      (∃ r, call_gemini failBackend "p" = "Error calling Gemini API:" ++ r) ∧
      (∃ final, runWorkflow failBackend (initState "c" (0 + 1)) = some final)) :=
  ⟨rfl, C10_call_gemini_total_on_error failBackend "p" "boom" rfl "c" 0⟩

end RagPdf
